import Mathlib

/-!
Verification of the transaction-matching engine of the ynab_comparator
repository (`ynab_comp/dataframes.py`, function `compare_frames`).

The pandas data model is embedded shallowly:

* a DataFrame row is a `Transaction`; a frame is a list of rows keyed by
  their index label (`Frame := List (Nat × Transaction)`), since
  `DataFrame.drop` removes rows by index label;
* amounts are exact integers in minor units (the engine compares amounts
  with exact equality);
* dates are day ordinals (`Int`); the source parses the date strings with
  `strptime` and compares `abs((t1 - t2).days)`, which for day-precision
  dates is exactly the absolute difference of the day ordinals;
* an optional column is `Option (Option String)`: `none` means the column
  is absent from the row (Python `"Memo" in transaction_2` is false, and
  `transaction_1["Reference"]` raises `KeyError`), `some none` means the
  value is NaN (`pd.isna` is true), `some (some s)` is an actual string
  (possibly empty: `pd.isna("")` is false);
* the fuzzy scorer `fuzz.partial_ratio` is an external library collaborator
  (thefuzz); it is passed in as a function `Sim` returning a score on the
  0..100 scale, and theorems quantify over it or constrain it by
  hypotheses;
* the `KeyError` raised by the unguarded `transaction_1["Reference"]`
  access is modelled with `Except Unit`.
-/

/-- Fuzzy string-similarity collaborator: `fuzz.partial_ratio`, a function
from two strings to a score on the 0..100 scale. -/
abbrev Sim := String → String → Nat

/-- A normalized transaction row.  `memo` and `reference` model the pandas
columns `Memo` and `Reference`: `none` = column absent from the row,
`some none` = NaN value, `some (some s)` = string value `s`. -/
structure Transaction where
  date : Int
  description : String
  amount : Int
  memo : Option (Option String) := none
  reference : Option (Option String) := none
deriving Repr, DecidableEq

/-- A DataFrame: rows in order, each keyed by its index label. -/
abbrev Frame := List (Nat × Transaction)

/-- The row written into the `not_found` result frame
(columns `Date`, `Description`, `Amount`). -/
structure MissingRow where
  date : Int
  description : String
  amount : Int
deriving Repr, DecidableEq

/-- The `missing_row` dictionary built from a truth row (source lines
236-240). -/
def missingOf (t : Transaction) : MissingRow :=
  ⟨t.date, t.description, t.amount⟩

/-- Source line 173: `frame_2.loc[frame_2["Amount"] == amount_1]` — the
rows of `frame_2` whose amount equals `amount_1`, in frame order. -/
def matchingAmount (frame_2 : Frame) (amount_1 : Int) : Frame :=
  frame_2.filter (fun r => r.2.amount == amount_1)

/-- Source lines 183, 204, 218, 230: `frame_2.drop(idx_2, inplace=True)` —
remove every row whose index label is `l`. -/
def dropLabel (f : Frame) (l : Nat) : Frame :=
  f.filter (fun r => r.1 != l)

/-- Outcome of evaluating one candidate row inside the inner loop of
`compare_frames` (source lines 181-232), recording which rule decided. -/
inductive RuleOutcome where
  /-- Line 181: `len(matching_amount) == 1` — uniqueness short-circuit. -/
  | acceptedUnique
  /-- Line 192: `abs(t_diff.days) > 7` — candidate skipped, no textual
  rule evaluated. -/
  | skippedWindow
  /-- Line 202: Description-vs-Description score above 65. -/
  | acceptedDesc
  /-- Line 216: Description-vs-Memo score above 65. -/
  | acceptedMemo
  /-- Line 228: Reference-vs-Memo score above 65. -/
  | acceptedRef
  /-- Line 228: Reference-vs-Memo score computed but not above 65. -/
  | rejectedRef
  /-- Line 223: the truth row's Reference value is NaN, so the
  Reference-vs-Memo score is never computed. -/
  | rejectedRefNaN
  /-- Line 209: the candidate's Memo column is absent or NaN, so neither
  Memo rule nor the Reference rule is evaluated. -/
  | rejectedNoMemo
  /-- Line 223: `transaction_1["Reference"]` raises `KeyError` because the
  truth frame has no Reference column. -/
  | keyErrorReference
deriving Repr, DecidableEq

/-- Evaluate one candidate `c` of the amount-matching set against truth row
`t`; `uniq` is `len(matching_amount) == 1` (source lines 181-232). -/
def evalCandidate (sim : Sim) (t c : Transaction) (uniq : Bool) : RuleOutcome :=
  if uniq then .acceptedUnique
  else if (t.date - c.date).natAbs > 7 then .skippedWindow
  else if sim t.description c.description > 65 then .acceptedDesc
  else match c.memo with
    | some (some m) =>
        if sim t.description m > 65 then .acceptedMemo
        else match t.reference with
          | none => .keyErrorReference
          | some none => .rejectedRefNaN
          | some (some r) =>
              if sim r m > 65 then .acceptedRef else .rejectedRef
    | _ => .rejectedNoMemo

/-- Outcomes on which the source sets `found = True`, drops the candidate
and breaks out of the inner loop. -/
def accepts : RuleOutcome → Bool
  | .acceptedUnique => true
  | .acceptedDesc => true
  | .acceptedMemo => true
  | .acceptedRef => true
  | _ => false

/-- Outcome on which the source raises `KeyError`. -/
def isKeyError : RuleOutcome → Bool
  | .keyErrorReference => true
  | _ => false

/-- Whether the Reference-vs-Memo similarity score of rule (d)
(source line 225) was actually computed. -/
def ruleDComputed : RuleOutcome → Bool
  | .acceptedRef => true
  | .rejectedRef => true
  | _ => false

/-- The inner loop over `matching_amount` (source lines 176-232): return
the index label of the first accepted candidate, `none` if the loop ends
with `found` still false, or an error if a `KeyError` is raised. -/
def findMatch (sim : Sim) (t : Transaction) (m : Frame) (uniq : Bool) :
    Except Unit (Option Nat) :=
  match m with
  | [] => .ok none
  | (l, c) :: rest =>
      let o := evalCandidate sim t c uniq
      if accepts o then .ok (some l)
      else if isKeyError o then .error ()
      else findMatch sim t rest uniq

/-- The mutable state of one `compare_frames` call: both frames plus the
`not_found` accumulator.  The source only ever reads `frame_1`; it writes
`frame_2` (row drops) and `not_found` (appends). -/
structure CompareState where
  frame_1 : Frame
  frame_2 : Frame
  not_found : List MissingRow
deriving Repr, DecidableEq

/-- One iteration of the outer loop of `compare_frames` (source lines
165-241) for truth row `t`: filter `frame_2` by amount, run the inner
loop, then either drop the matched row from `frame_2` or append `t` to
`not_found`. -/
def processTruthRow (sim : Sim) (t : Transaction) (s : CompareState) :
    Except Unit CompareState :=
  let m := matchingAmount s.frame_2 t.amount
  match findMatch sim t m (m.length == 1) with
  | .error e => .error e
  | .ok (some l) => .ok { s with frame_2 := dropLabel s.frame_2 l }
  | .ok none => .ok { s with not_found := s.not_found ++ [missingOf t] }

/-- The outer loop of `compare_frames`: iterate the truth rows in order,
threading the state. -/
def compareLoop (sim : Sim) (rows : List Transaction) (s : CompareState) :
    Except Unit CompareState :=
  match rows with
  | [] => .ok s
  | t :: rest =>
      match processTruthRow sim t s with
      | .error e => .error e
      | .ok s1 => compareLoop sim rest s1

/-- `compare_frames(frame_1, frame_2)` (source lines 153-243): returns the
`not_found` frame together with the final (mutated) candidate frame, or an
error when the `KeyError` of line 223 is raised. -/
def compare_frames (sim : Sim) (frame_1 frame_2 : Frame) :
    Except Unit (List MissingRow × Frame) :=
  match compareLoop sim (frame_1.map (·.2)) ⟨frame_1, frame_2, []⟩ with
  | .error e => .error e
  | .ok s => .ok (s.not_found, s.frame_2)

/-- Similarity function that scores every pair 0, used for concrete
counterexamples where no textual rule may fire. -/
def simZero : Sim := fun _ _ => 0

/-- Similarity function that scores identical strings 100 and everything
else 0, used for concrete witnesses. -/
def simTable : Sim := fun a b => if a = b then 100 else 0

/-- Claim C1: when exactly one remaining candidate row has the truth row's
amount, `compare_frames` accepts it unconditionally — for every similarity
function and with no constraint on dates or descriptions — drops it from
the candidate frame, and does not append the truth row to `not_found`. -/
theorem unique_amount_short_circuit (sim : Sim) (t : Transaction)
    (s : CompareState) (l : Nat) (c : Transaction)
    (h : matchingAmount s.frame_2 t.amount = [(l, c)]) :
    processTruthRow sim t s = .ok { s with frame_2 := dropLabel s.frame_2 l } := by
  simp only [processTruthRow, h]
  simp [findMatch, evalCandidate, accepts]

/-- Witness for C1: a single amount-equal candidate 1000 days away with a
similarity score of 0 is still consumed and the truth row is not reported
missing. -/
theorem unique_amount_short_circuit_witness :
    processTruthRow simZero ⟨0, "truth text", 5, none, none⟩
      ⟨[], [(3, ⟨1000, "zzz", 5, none, none⟩)], []⟩ = .ok ⟨[], [], []⟩ := by
  have h := unique_amount_short_circuit simZero ⟨0, "truth text", 5, none, none⟩
    ⟨[], [(3, ⟨1000, "zzz", 5, none, none⟩)], []⟩ 3 ⟨1000, "zzz", 5, none, none⟩ rfl
  simpa [dropLabel] using h

/-- Claim C2: in the ambiguous case (`uniq = false`), a candidate more than
7 days away is skipped with no textual rule evaluated (outcome
`skippedWindow`, for every similarity function), while a candidate exactly
7 days (or fewer) away proceeds to the text rules and is accepted when the
description score exceeds 65. -/
theorem date_window_rejection (sim : Sim) (t c c2 : Transaction)
    (h8 : (t.date - c.date).natAbs > 7)
    (h7 : (t.date - c2.date).natAbs ≤ 7)
    (hsim : sim t.description c2.description > 65) :
    evalCandidate sim t c false = .skippedWindow ∧
    evalCandidate sim t c2 false = .acceptedDesc := by
  constructor
  · simp [evalCandidate, h8]
  · have hw : ¬ ((t.date - c2.date).natAbs > 7) := by omega
    simp [evalCandidate, hw, hsim]

/-- Witness for C2: equal amounts, identical descriptions (score 100 > 65):
8 days apart the candidate is skipped at the date window, 7 days apart it
is accepted by the description rule. -/
theorem date_window_rejection_witness :
    evalCandidate simTable ⟨0, "shop", -5, none, none⟩
        ⟨8, "shop", -5, none, none⟩ false = .skippedWindow ∧
    evalCandidate simTable ⟨0, "shop", -5, none, none⟩
        ⟨7, "shop", -5, none, none⟩ false = .acceptedDesc :=
  date_window_rejection simTable ⟨0, "shop", -5, none, none⟩
    ⟨8, "shop", -5, none, none⟩ ⟨7, "shop", -5, none, none⟩
    (by decide) (by decide) (by decide)

/-- Similarity function realizing the exact boundary scores 65 and 66,
used for the C4 witness. -/
def simBoundary : Sim := fun a b =>
  if a = "alpha" && b = "beta" then 65
  else if a = "alpha" && b = "gamma" then 66 else 0

/-- Claim C4: the 65 threshold is strict.  In the ambiguous case, within
the date window, a description score of exactly 65 does not accept via the
primary text rule, while a score of 66 does; and when such a 66-scoring
candidate heads an amount-matching set of size at least two, the row is
consumed (dropped from the candidate frame) and the truth row is not
reported missing. -/
theorem similarity_threshold_strict (sim : Sim) (t c c2 : Transaction)
    (hw : (t.date - c.date).natAbs ≤ 7)
    (hw2 : (t.date - c2.date).natAbs ≤ 7)
    (h65 : sim t.description c.description = 65)
    (h66 : sim t.description c2.description = 66) :
    evalCandidate sim t c false ≠ .acceptedDesc ∧
    evalCandidate sim t c2 false = .acceptedDesc ∧
    ∀ s l rest, matchingAmount s.frame_2 t.amount = (l, c2) :: rest → rest ≠ [] →
      processTruthRow sim t s = .ok { s with frame_2 := dropLabel s.frame_2 l } := by
  have hwn : ¬ ((t.date - c.date).natAbs > 7) := by omega
  have hwn2 : ¬ ((t.date - c2.date).natAbs > 7) := by omega
  have h65n : ¬ (sim t.description c.description > 65) := by omega
  have h66y : sim t.description c2.description > 65 := by omega
  have hc2 : evalCandidate sim t c2 false = .acceptedDesc := by
    simp [evalCandidate, hwn2, h66y]
  refine ⟨?_, hc2, ?_⟩
  · intro hEq
    unfold evalCandidate at hEq
    simp only [Bool.false_eq_true, if_false] at hEq
    rw [if_neg hwn, if_neg h65n] at hEq
    rcases hmemo : c.memo with _ | om <;> rw [hmemo] at hEq
    · simp at hEq
    · rcases om with _ | m
      · simp at hEq
      · simp only [] at hEq
        by_cases hm2 : sim t.description m > 65
        · rw [if_pos hm2] at hEq
          exact absurd hEq (by simp)
        · rw [if_neg hm2] at hEq
          rcases href : t.reference with _ | orf <;> rw [href] at hEq
          · simp at hEq
          · rcases orf with _ | r
            · simp at hEq
            · by_cases hr : sim r m > 65 <;> simp [hr] at hEq
  · intro s l rest hm hrest
    have hlen0 : ((matchingAmount s.frame_2 t.amount).length == 1) = false := by
      rw [hm]
      cases rest with
      | nil => exact absurd rfl hrest
      | cons a as => simp
    have hfind : findMatch sim t (matchingAmount s.frame_2 t.amount)
        ((matchingAmount s.frame_2 t.amount).length == 1) = .ok (some l) := by
      rw [hlen0, hm]
      simp [findMatch, hc2, accepts]
    have hdef : processTruthRow sim t s =
        match findMatch sim t (matchingAmount s.frame_2 t.amount)
          ((matchingAmount s.frame_2 t.amount).length == 1) with
        | .error e => .error e
        | .ok (some l) => .ok { s with frame_2 := dropLabel s.frame_2 l }
        | .ok none => .ok { s with not_found := s.not_found ++ [missingOf t] } := rfl
    rw [hdef, hfind]

/-- Boundary truth row used by the C4 witness. -/
def truthBoundary : Transaction := ⟨0, "alpha", -7, none, none⟩

/-- Candidate scoring exactly 65 against `truthBoundary` under
`simBoundary`. -/
def candBoundary65 : Transaction := ⟨0, "beta", -7, none, none⟩

/-- Candidate scoring exactly 66 against `truthBoundary` under
`simBoundary`. -/
def candBoundary66 : Transaction := ⟨0, "gamma", -7, none, none⟩

/-- Witness for C4: at score 65 the candidate is not accepted by the
description rule, at score 66 it is, and the 66-scorer at the head of a
two-element amount-matching set is consumed with nothing reported
missing. -/
theorem similarity_threshold_strict_witness :
    evalCandidate simBoundary truthBoundary candBoundary65 false ≠ .acceptedDesc ∧
    evalCandidate simBoundary truthBoundary candBoundary66 false = .acceptedDesc ∧
    processTruthRow simBoundary truthBoundary
      ⟨[], [(1, candBoundary66), (2, candBoundary65)], []⟩ =
      .ok ⟨[], [(2, candBoundary65)], []⟩ := by
  obtain ⟨h1, h2, h3⟩ := similarity_threshold_strict simBoundary truthBoundary
    candBoundary65 candBoundary66 (by decide) (by decide) (by decide) (by decide)
  refine ⟨h1, h2, ?_⟩
  have h4 := h3 ⟨[], [(1, candBoundary66), (2, candBoundary65)], []⟩ 1
    [(2, candBoundary65)] (by decide) (by decide)
  simpa [dropLabel, candBoundary65, candBoundary66] using h4

/-- Truth row for the C3 counterexample: its Reference is present and
non-empty. -/
def truthC3 : Transaction := ⟨0, "truth desc", -4200, none, some (some "ref123")⟩

/-- Candidate for the C3 counterexample: equal amount, same date, but its
Memo value is NaN. -/
def candC3 : Transaction := ⟨0, "other", -4200, some none, none⟩

/-- Claim C3 counterexample: all of the claim's premises hold for
`truthC3` against `candC3` in the ambiguous case — amount equal, dates
within the window, rule (b) not accepting, rule (c) not accepting, and the
truth row's Reference present and non-empty — yet because the candidate's
Memo is NaN the Reference-vs-Memo similarity of rule (d) is never computed
and the candidate is rejected: rule (d) is not applied to candidates whose
own secondary text is absent. -/
theorem cross_secondary_always_applied_false :
    truthC3.reference = some (some "ref123") ∧
    candC3.memo = some none ∧
    truthC3.amount = candC3.amount ∧
    (truthC3.date - candC3.date).natAbs ≤ 7 ∧
    simZero truthC3.description candC3.description ≤ 65 ∧
    evalCandidate simZero truthC3 candC3 false = .rejectedNoMemo ∧
    ruleDComputed (evalCandidate simZero truthC3 candC3 false) = false ∧
    accepts (evalCandidate simZero truthC3 candC3 false) = false := by
  decide

/-- For a candidate whose Memo column is absent or NaN, the
Reference-vs-Memo similarity of rule (d) is never computed, whatever the
truth row, similarity function or uniqueness flag. -/
lemma ruleD_skipped_of_no_memo (sim : Sim) (t c : Transaction) (u : Bool)
    (h : c.memo = none ∨ c.memo = some none) :
    ruleDComputed (evalCandidate sim t c u) = false := by
  unfold evalCandidate
  rcases h with h | h <;> rw [h] <;> split_ifs <;> simp [ruleDComputed]

/-- Claim C3 (amended): rule (d) is evaluated only for candidates whose own
Memo is present and non-NaN — it is nested inside the Memo guard of rule
(c).  For such a candidate within the date window that rules (b) and (c)
do not accept, when the truth row's Reference is present and non-NaN the
Reference-vs-Memo score is computed and the candidate is accepted exactly
when it exceeds 65; for a candidate whose Memo is absent or NaN, the score
is never computed. -/
theorem cross_secondary_fallback (sim : Sim) (t c : Transaction) (m r : String)
    (hw : (t.date - c.date).natAbs ≤ 7)
    (hb : sim t.description c.description ≤ 65)
    (hmem : c.memo = some (some m))
    (hc : sim t.description m ≤ 65)
    (href : t.reference = some (some r)) :
    ruleDComputed (evalCandidate sim t c false) = true ∧
    (accepts (evalCandidate sim t c false) = true ↔ sim r m > 65) ∧
    (sim r m > 65 → evalCandidate sim t c false = .acceptedRef) ∧
    (∀ c2, c2.memo = none ∨ c2.memo = some none →
      ruleDComputed (evalCandidate sim t c2 false) = false) := by
  have hwn : ¬ ((t.date - c.date).natAbs > 7) := by omega
  have hbn : ¬ (sim t.description c.description > 65) := by omega
  have hcn : ¬ (sim t.description m > 65) := by omega
  have he : evalCandidate sim t c false =
      (if sim r m > 65 then .acceptedRef else .rejectedRef) := by
    simp [evalCandidate, hwn, hbn, hmem, hcn, href]
  refine ⟨?_, ?_, ?_, fun c2 h => ruleD_skipped_of_no_memo sim t c2 false h⟩
  · rw [he]; by_cases hr : sim r m > 65 <;> simp [hr, ruleDComputed]
  · rw [he]; by_cases hr : sim r m > 65 <;> simp [hr, accepts]
  · intro hr; rw [he, if_pos hr]

/-- Truth row for the C3 amended witness: Reference "inv 42". -/
def truthRefW : Transaction := ⟨100, "stora coop", -310, none, some (some "inv 42")⟩

/-- Candidate for the C3 amended witness: Memo "inv 42", description
unrelated to the truth row's. -/
def candMemoW : Transaction := ⟨104, "bank text", -310, some (some "inv 42"), none⟩

/-- Witness for the amended C3: descriptions score 0 under `simTable`, the
Reference-vs-Memo pair scores 100, so rule (d) is computed and accepts. -/
theorem cross_secondary_fallback_witness :
    ruleDComputed (evalCandidate simTable truthRefW candMemoW false) = true ∧
    evalCandidate simTable truthRefW candMemoW false = .acceptedRef := by
  have h := cross_secondary_fallback simTable truthRefW candMemoW "inv 42" "inv 42"
    (by decide) (by decide) (by decide) (by decide) (by decide)
  exact ⟨h.1, h.2.2.1 (by decide)⟩

/-- The outer loop with an exhausted candidate frame reports every
remaining truth row, in order, as missing. -/
lemma compareLoop_empty_frame2 (sim : Sim) :
    ∀ (rows : List Transaction) (f1 : Frame) (acc : List MissingRow),
      compareLoop sim rows ⟨f1, [], acc⟩ =
        .ok ⟨f1, [], acc ++ rows.map missingOf⟩ := by
  intro rows
  induction rows with
  | nil => intro f1 acc; simp [compareLoop]
  | cons t rest ih =>
      intro f1 acc
      have hp : processTruthRow sim t ⟨f1, [], acc⟩ =
          .ok ⟨f1, [], acc ++ [missingOf t]⟩ := by
        simp [processTruthRow, matchingAmount, findMatch]
      simp [compareLoop, hp, ih]

/-- Claim C5: a truth row with no amount-equal candidate is appended to
`not_found` and nothing is dropped; `compare_frames` on an empty truth
frame returns an empty result with the candidate frame intact; and with an
empty candidate frame every truth row is reported missing, in order. -/
theorem empty_match_set_reports_missing (sim : Sim) :
    (∀ t s, matchingAmount s.frame_2 t.amount = [] →
      processTruthRow sim t s =
        .ok { s with not_found := s.not_found ++ [missingOf t] }) ∧
    (∀ f2, compare_frames sim [] f2 = .ok ([], f2)) ∧
    (∀ f1, compare_frames sim f1 [] =
      .ok (f1.map (fun r => missingOf r.2), [])) := by
  refine ⟨?_, ?_, ?_⟩
  · intro t s h
    simp [processTruthRow, h, findMatch]
  · intro f2
    rfl
  · intro f1
    unfold compare_frames
    rw [show (⟨f1, [], []⟩ : CompareState) = ⟨f1, [], []⟩ from rfl]
    rw [compareLoop_empty_frame2 sim (f1.map (·.2)) f1 []]
    simp [List.map_map, Function.comp]

/-- Truth row for the C5 witness: amount 5 matches nothing. -/
def truthMiss : Transaction := ⟨0, "missing one", 5, none, none⟩

/-- Candidate for the C5 witness with a different amount. -/
def candOtherAmount : Transaction := ⟨0, "unrelated", 6, none, none⟩

/-- Witness for C5 at concrete inputs: no amount match appends the missing
row; empty truth gives an empty result; empty candidates report the whole
truth frame. -/
theorem empty_match_set_reports_missing_witness :
    processTruthRow simZero truthMiss ⟨[], [(0, candOtherAmount)], []⟩ =
      .ok ⟨[], [(0, candOtherAmount)], [missingOf truthMiss]⟩ ∧
    compare_frames simZero [] [(0, candOtherAmount)] =
      .ok ([], [(0, candOtherAmount)]) ∧
    compare_frames simZero [(9, truthMiss)] [] =
      .ok ([missingOf truthMiss], []) := by
  obtain ⟨h1, h2, h3⟩ := empty_match_set_reports_missing simZero
  refine ⟨?_, h2 [(0, candOtherAmount)], by simpa using h3 [(9, truthMiss)]⟩
  simpa using h1 truthMiss ⟨[], [(0, candOtherAmount)], []⟩ (by decide)

/-- A label returned by the inner loop belongs to the amount-matching
set it searched. -/
lemma findMatch_mem (sim : Sim) (t : Transaction) :
    ∀ (m : Frame) (u : Bool) (l : Nat),
      findMatch sim t m u = .ok (some l) → ∃ c, (l, c) ∈ m := by
  intro m
  induction m with
  | nil => intro u l h; simp [findMatch] at h
  | cons p rest ih =>
      intro u l h
      simp only [findMatch] at h
      by_cases ha : accepts (evalCandidate sim t p.2 u) = true
      · rw [if_pos ha] at h
        obtain rfl : p.1 = l := by simpa using h
        exact ⟨p.2, by simp⟩
      · rw [if_neg ha] at h
        by_cases hk : isKeyError (evalCandidate sim t p.2 u) = true
        · rw [if_pos hk] at h; simp at h
        · rw [if_neg hk] at h
          obtain ⟨c, hc⟩ := ih u l h
          exact ⟨c, List.mem_cons_of_mem _ hc⟩

/-- Dropping a row is a row removal: the result is a sublist of the
frame. -/
lemma dropLabel_sublist (f : Frame) (l : Nat) : List.Sublist (dropLabel f l) f :=
  List.filter_sublist f

/-- When the index labels are distinct and label `l` is present, dropping
it removes exactly one row. -/
lemma dropLabel_length (l : Nat) (c : Transaction) :
    ∀ f : Frame, (f.map (·.1)).Nodup → (l, c) ∈ f →
      (dropLabel f l).length + 1 = f.length := by
  intro f
  induction f with
  | nil => intro _ h; cases h
  | cons p rest ih =>
      intro hnd hmem
      rw [List.map_cons, List.nodup_cons] at hnd
      obtain ⟨hp, hrest⟩ := hnd
      rcases List.mem_cons.1 hmem with heq | hmem2
      · subst heq
        have hall : dropLabel rest l = rest := by
          refine List.filter_eq_self.2 ?_
          intro a ha
          simp only [bne_iff_ne, ne_eq]
          intro hx
          exact hp (hx ▸ List.mem_map_of_mem (·.1) ha)
        simp [dropLabel, hall]
        simpa [dropLabel] using congrArg List.length hall
      · have hne : p.1 ≠ l := by
          intro hx
          exact hp (hx ▸ List.mem_map_of_mem (·.1) hmem2)
        have : dropLabel (p :: rest) l = p :: dropLabel rest l := by
          simp [dropLabel, hne]
        rw [this, List.length_cons, List.length_cons]
        rw [← ih hrest hmem2]

/-- Case analysis of one outer-loop iteration: the truth frame is
untouched, and either a row of the amount-matching set is dropped with
nothing reported, or nothing is dropped and the truth row is reported
missing. -/
lemma processTruthRow_ok (sim : Sim) (t : Transaction) (s s1 : CompareState)
    (h : processTruthRow sim t s = .ok s1) :
    s1.frame_1 = s.frame_1 ∧
    ((∃ l c, (l, c) ∈ matchingAmount s.frame_2 t.amount ∧
        s1.frame_2 = dropLabel s.frame_2 l ∧ s1.not_found = s.not_found) ∨
      (s1.frame_2 = s.frame_2 ∧
        s1.not_found = s.not_found ++ [missingOf t])) := by
  simp only [processTruthRow] at h
  rcases hf : findMatch sim t (matchingAmount s.frame_2 t.amount)
      ((matchingAmount s.frame_2 t.amount).length == 1) with e | o
  · rw [hf] at h; simp at h
  · rw [hf] at h
    rcases o with _ | l
    · have hs : ({ s with not_found := s.not_found ++ [missingOf t] } :
          CompareState) = s1 := by simpa using h
      subst hs
      exact ⟨rfl, Or.inr ⟨rfl, rfl⟩⟩
    · obtain ⟨c, hc⟩ := findMatch_mem sim t _ _ l hf
      have hs : ({ s with frame_2 := dropLabel s.frame_2 l } :
          CompareState) = s1 := by simpa using h
      subst hs
      exact ⟨rfl, Or.inl ⟨l, c, hc, rfl, rfl⟩⟩

/-- One outer-loop iteration preserves the truth frame and only ever
removes rows from the candidate frame. -/
lemma processTruthRow_frame_effect (sim : Sim) (t : Transaction)
    (s s1 : CompareState) (h : processTruthRow sim t s = .ok s1) :
    s1.frame_1 = s.frame_1 ∧ List.Sublist s1.frame_2 s.frame_2 := by
  obtain ⟨h1, h2 | h2⟩ := processTruthRow_ok sim t s s1 h
  · obtain ⟨l, c, _, hdrop, _⟩ := h2
    exact ⟨h1, hdrop ▸ dropLabel_sublist s.frame_2 l⟩
  · exact ⟨h1, h2.1 ▸ List.Sublist.refl _⟩

/-- With distinct index labels, one outer-loop iteration either consumes
exactly one candidate row and reports nothing, or consumes nothing and
reports the truth row; distinctness of the labels is preserved. -/
lemma processTruthRow_consumption (sim : Sim) (t : Transaction)
    (s s1 : CompareState) (hnd : (s.frame_2.map (·.1)).Nodup)
    (h : processTruthRow sim t s = .ok s1) :
    (s1.frame_2.map (·.1)).Nodup ∧
    s.frame_2.length + s1.not_found.length =
      s1.frame_2.length + s.not_found.length + 1 := by
  obtain ⟨_, h2 | h2⟩ := processTruthRow_ok sim t s s1 h
  · obtain ⟨l, c, hmem, hdrop, hnf⟩ := h2
    have hmem2 : (l, c) ∈ s.frame_2 := List.mem_of_mem_filter hmem
    have hlen := dropLabel_length l c s.frame_2 hnd hmem2
    constructor
    · rw [hdrop]
      exact hnd.sublist (List.Sublist.map _ (dropLabel_sublist s.frame_2 l))
    · rw [hdrop, hnf]
      omega
  · obtain ⟨hfr, hnf⟩ := h2
    refine ⟨hfr ▸ hnd, ?_⟩
    simp only [hfr, hnf, List.length_append, List.length_singleton]
    omega

/-- The outer loop preserves the truth frame and only removes candidate
rows. -/
lemma compareLoop_frame_effect (sim : Sim) :
    ∀ (rows : List Transaction) (s s1 : CompareState),
      compareLoop sim rows s = .ok s1 →
      s1.frame_1 = s.frame_1 ∧ List.Sublist s1.frame_2 s.frame_2 := by
  intro rows
  induction rows with
  | nil =>
      intro s s1 h
      have hs : s = s1 := by simpa [compareLoop] using h
      subst hs
      exact ⟨rfl, List.Sublist.refl _⟩
  | cons t rest ih =>
      intro s s1 h
      simp only [compareLoop] at h
      rcases hp : processTruthRow sim t s with e | s2
      · rw [hp] at h; simp at h
      · rw [hp] at h
        obtain ⟨h1, h2⟩ := processTruthRow_frame_effect sim t s s2 hp
        obtain ⟨g1, g2⟩ := ih s2 s1 h
        exact ⟨g1.trans h1, g2.trans h2⟩

/-- Bookkeeping identity of the outer loop under distinct labels:
every processed truth row either consumes exactly one candidate row or
adds exactly one missing row. -/
lemma compareLoop_consumption (sim : Sim) :
    ∀ (rows : List Transaction) (s s1 : CompareState),
      (s.frame_2.map (·.1)).Nodup →
      compareLoop sim rows s = .ok s1 →
      s.frame_2.length + s1.not_found.length =
        s1.frame_2.length + s.not_found.length + rows.length := by
  intro rows
  induction rows with
  | nil =>
      intro s s1 hnd h
      have hs : s = s1 := by simpa [compareLoop] using h
      subst hs
      simp
  | cons t rest ih =>
      intro s s1 hnd h
      simp only [compareLoop] at h
      rcases hp : processTruthRow sim t s with e | s2
      · rw [hp] at h; simp at h
      · rw [hp] at h
        obtain ⟨hnd2, heq⟩ := processTruthRow_consumption sim t s s2 hnd hp
        have hrec := ih s2 s1 hnd2 h
        simp only [List.length_cons]
        omega

/-- Claim C6: matching is one-to-one.  With distinct index labels, the
final candidate frame is a sublist of the initial one (rows are removed,
never duplicated, added or modified), and the number of consumed candidate
rows equals the number of matched truth rows: initial candidates plus
missing rows equals remaining candidates plus truth rows, so each
candidate row is consumed at most once and by at most one truth row. -/
theorem one_to_one_consumption (sim : Sim) (f1 f2 : Frame)
    (nf : List MissingRow) (f2x : Frame)
    (hnd : (f2.map (·.1)).Nodup)
    (h : compare_frames sim f1 f2 = .ok (nf, f2x)) :
    List.Sublist f2x f2 ∧
    f2.length + nf.length = f2x.length + f1.length ∧
    nf.length ≤ f1.length := by
  unfold compare_frames at h
  rcases hl : compareLoop sim (f1.map (·.2)) ⟨f1, f2, []⟩ with e | s
  · rw [hl] at h; simp at h
  · rw [hl] at h
    have hpair : s.not_found = nf ∧ s.frame_2 = f2x := by
      have := h
      simp only [Except.ok.injEq, Prod.mk.injEq] at this
      exact this
    obtain ⟨hnf, hfr⟩ := hpair
    obtain ⟨_, hsub⟩ := compareLoop_frame_effect sim (f1.map (·.2)) ⟨f1, f2, []⟩ s hl
    have hlen := compareLoop_consumption sim (f1.map (·.2)) ⟨f1, f2, []⟩ s hnd hl
    simp only [List.length_map, List.length_nil] at hlen
    have hle : f2x.length ≤ f2.length := by
      rw [← hfr]
      exact hsub.length_le
    rw [hnf, hfr] at hlen
    refine ⟨hfr ▸ hsub, ?_, ?_⟩ <;> omega

/-- Truth row for the C6 witness. -/
def dupTruth : Transaction := ⟨0, "ica store", -100, none, none⟩

/-- Candidate row for the C6 witness; two content-identical copies of it
are distinct consumable units. -/
def candDup : Transaction := ⟨0, "ica store", -100, none, none⟩

/-- Witness for C6: two content-identical candidate rows, one truth row —
exactly one copy is consumed; the other remains. -/
theorem one_to_one_consumption_witness :
    List.Sublist ([(1, candDup)] : Frame) [(0, candDup), (1, candDup)] ∧
    ([(0, candDup), (1, candDup)] : Frame).length +
        ([] : List MissingRow).length =
      ([(1, candDup)] : Frame).length + ([(0, dupTruth)] : Frame).length ∧
    ([] : List MissingRow).length ≤ ([(0, dupTruth)] : Frame).length :=
  one_to_one_consumption simTable [(0, dupTruth)] [(0, candDup), (1, candDup)]
    [] [(1, candDup)] (by decide) (by rfl)

/-- Claim C7: the outer loop never writes to the truth frame — the
`frame_1` component of the state is untouched by every iteration — and the
candidate frame shrinks monotonically: the final candidate frame is a
sublist of the initial one, so rows are only ever removed, never added or
modified. -/
theorem truth_frame_not_mutated (sim : Sim) (rows : List Transaction)
    (s s1 : CompareState) (h : compareLoop sim rows s = .ok s1) :
    s1.frame_1 = s.frame_1 ∧ List.Sublist s1.frame_2 s.frame_2 :=
  compareLoop_frame_effect sim rows s s1 h

/-- Witness for C7 on a run that both consumes a candidate and reports a
missing row: the truth frame is unchanged and the candidate frame is a
sublist of the original. -/
theorem truth_frame_not_mutated_witness :
    (⟨[(0, dupTruth), (9, truthMiss)], [], [missingOf truthMiss]⟩ :
        CompareState).frame_1 =
      (⟨[(0, dupTruth), (9, truthMiss)], [(4, candDup)], []⟩ :
        CompareState).frame_1 ∧
    List.Sublist
      (⟨[(0, dupTruth), (9, truthMiss)], [], [missingOf truthMiss]⟩ :
        CompareState).frame_2
      (⟨[(0, dupTruth), (9, truthMiss)], [(4, candDup)], []⟩ :
        CompareState).frame_2 :=
  truth_frame_not_mutated simTable [dupTruth, truthMiss]
    ⟨[(0, dupTruth), (9, truthMiss)], [(4, candDup)], []⟩
    ⟨[(0, dupTruth), (9, truthMiss)], [], [missingOf truthMiss]⟩ (by rfl)

/-- Claim C8: first-accepted-in-iteration-order wins.  If every candidate
before `(l, c)` in the amount-matching set is rejected (and raises no
error), and `(l, c)` satisfies an accepting rule, the inner loop returns
`l` whatever comes after it — no score of any later candidate is ever
compared, so a later candidate with a higher score is never chosen. -/
theorem first_accepted_wins (sim : Sim) (t : Transaction)
    (pre rest : Frame) (l : Nat) (c : Transaction)
    (hpre : ∀ p ∈ pre, accepts (evalCandidate sim t p.2 false) = false ∧
      isKeyError (evalCandidate sim t p.2 false) = false)
    (hacc : accepts (evalCandidate sim t c false) = true) :
    findMatch sim t (pre ++ (l, c) :: rest) false = .ok (some l) := by
  induction pre with
  | nil => simp [findMatch, hacc]
  | cons p ps ih =>
      obtain ⟨h1, h2⟩ := hpre p (by simp)
      have hih := ih (fun q hq => hpre q (List.mem_cons_of_mem _ hq))
      simp [findMatch, h1, h2, hih]

/-- Similarity table for the C8 witness: the first eligible candidate
scores 70, a later one scores 99. -/
def simScores : Sim := fun a b =>
  if a = "truth t" && b = "first ok" then 70
  else if a = "truth t" && b = "second best" then 99 else 0

/-- Witness for C8: the candidate scoring 70 comes first and is chosen
even though a later candidate scores 99. -/
theorem first_accepted_wins_witness :
    findMatch simScores ⟨0, "truth t", -1, none, none⟩
      ([(0, ⟨0, "noise", -1, none, none⟩)] ++
        (1, ⟨0, "first ok", -1, none, none⟩) ::
          [(2, ⟨0, "second best", -1, none, none⟩)]) false = .ok (some 1) :=
  first_accepted_wins simScores ⟨0, "truth t", -1, none, none⟩
    [(0, ⟨0, "noise", -1, none, none⟩)]
    [(2, ⟨0, "second best", -1, none, none⟩)] 1
    ⟨0, "first ok", -1, none, none⟩ (by decide) (by decide)

/-- Truth row of the spec's end-to-end miss scenario. -/
def truthRent : Transaction := ⟨18414, "rent payment", -8000, none, none⟩

/-- First candidate of the miss scenario: same amount and date, unrelated
description. -/
def candUnrelated : Transaction := ⟨18414, "unrelated vendor", -8000, none, none⟩

/-- Second candidate of the miss scenario: identical to the truth row. -/
def candRent : Transaction := ⟨18414, "rent payment", -8000, none, none⟩

/-- Claim C9 counterexample: when only the unrelated candidate exists, the
amount-matching set is a singleton, so the uniqueness short-circuit
consumes it unconditionally — even with every similarity score at 0 — and
the result is empty, not the unmatched truth record as the claim says. -/
theorem end_to_end_miss_counterexample :
    compare_frames simZero [(0, truthRent)] [(0, candUnrelated)] =
      .ok ([], []) ∧
    ([] : List MissingRow) ≠ [missingOf truthRent] :=
  ⟨rfl, by decide⟩

/-- Claim C9 (amended): with both candidates the amount match is ambiguous,
the unrelated candidate fails the similarity rules, the identical one is
accepted and consumed, and the result is empty; but with only the
unrelated candidate, the uniqueness short-circuit fires for every
similarity function: the unrelated candidate is consumed and the result is
empty — not the unmatched truth record. -/
theorem end_to_end_miss_amended (sim : Sim)
    (hlow : sim "rent payment" "unrelated vendor" ≤ 65)
    (hhigh : sim "rent payment" "rent payment" > 65) :
    compare_frames sim [(0, truthRent)] [(4, candUnrelated), (7, candRent)] =
      .ok ([], [(4, candUnrelated)]) ∧
    ∀ simx : Sim,
      compare_frames simx [(0, truthRent)] [(4, candUnrelated)] =
        .ok ([], []) := by
  have hlown : ¬ (sim "rent payment" "unrelated vendor" > 65) := by omega
  constructor
  · simp [compare_frames, compareLoop, processTruthRow, matchingAmount,
      findMatch, evalCandidate, accepts, isKeyError, dropLabel,
      truthRent, candUnrelated, candRent, hlown, hhigh]
  · intro simx
    simp [compare_frames, compareLoop, processTruthRow, matchingAmount,
      findMatch, evalCandidate, accepts, dropLabel, truthRent, candUnrelated]

/-- Witness for the amended C9 with the concrete scorer `simTable`
(identical strings score 100, different strings 0). -/
theorem end_to_end_miss_amended_witness :
    compare_frames simTable [(0, truthRent)]
      [(4, candUnrelated), (7, candRent)] = .ok ([], [(4, candUnrelated)]) ∧
    compare_frames simTable [(0, truthRent)] [(4, candUnrelated)] =
      .ok ([], []) := by
  obtain ⟨h1, h2⟩ := end_to_end_miss_amended simTable (by decide) (by decide)
  exact ⟨h1, h2 simTable⟩

/-- Truth row for C10: its frame has no Reference column. -/
def truthNoRefCol : Transaction := ⟨0, "groceries", 5, none, none⟩

/-- First C10 candidate: amount-equal, in-window, Memo present and
non-NaN, both similarity scores 0. -/
def candMemoA : Transaction := ⟨0, "other a", 5, some (some "memo a"), none⟩

/-- Second C10 candidate, making the amount-matching set ambiguous. -/
def candMemoB : Transaction := ⟨0, "other b", 5, some (some "memo b"), none⟩

/-- Claim C10: `compare_frames` is not total over records with an optional
secondary field.  On a concrete input whose truth row lacks the Reference
column while an ambiguous amount-equal candidate within the window has a
non-NaN Memo and both similarity scores are 0 (≤ 65), the unguarded
`transaction_1["Reference"]` access raises `KeyError`: per-candidate
evaluation hits `keyErrorReference` and the whole call errors instead of
reporting the row unmatched. -/
theorem reference_key_error :
    truthNoRefCol.reference = none ∧
    candMemoA.memo = some (some "memo a") ∧
    evalCandidate simZero truthNoRefCol candMemoA false = .keyErrorReference ∧
    compare_frames simZero [(0, truthNoRefCol)]
      [(4, candMemoA), (7, candMemoB)] = .error () :=
  ⟨rfl, rfl, rfl, rfl⟩
